import Mathlib

/-!
# Verification of the mortgage analysis core

Shallow embedding of the numerical core of the mortgage-analyst
application: payment-frequency handling, the Canadian semi-annual
periodic-rate conversion, the level-payment (annuity) solver and its
inverse, the amortization-schedule generator, the GDS/TDS affordability
engine and the qualifying-rate stress test.

Modelling conventions:
* Currency and rate values are embedded as exact rationals (`ℚ`); the
  source rounding helpers `Math.round(x*100)/100` and
  `Math.round(x*1e10)/1e10` are embedded exactly as
  round-half-up at the given precision.
* The one transcendental operation in the source,
  `Math.pow(1 + r/2, 2/paymentsPerYear)` with a fractional exponent,
  is embedded as a real-number power (`Real.rpow`); its 10-decimal
  rounding immediately produces a rational again, so every downstream
  computation stays in `ℚ`.
* Division by zero in `ℚ` yields `0` (Lean convention); the source, run
  on IEEE doubles, yields `NaN` in the same situations.  Both make every
  ordering comparison against the affected value false, which is the
  only way those values are consumed here.
* The schedule's `paymentDate` bookkeeping is omitted: no verified
  property concerns dates.
-/

namespace MortgagePro

/-- The six payment-frequency variants of the `PaymentFrequency` union type. -/
inductive PaymentFrequency where
  | monthly
  | semiMonthly
  | biWeekly
  | weekly
  | acceleratedBiWeekly
  | acceleratedWeekly
deriving DecidableEq, Repr

open PaymentFrequency

/-- `getPaymentsPerYear` from `payment.ts`: payments per year for each variant.
(The source's `default: return 12` arm is unreachable for the six variants.) -/
def getPaymentsPerYear : PaymentFrequency → ℕ
  | monthly => 12
  | semiMonthly => 24
  | biWeekly => 26
  | weekly => 52
  | acceleratedBiWeekly => 26
  | acceleratedWeekly => 52

/-- `Math.round(x * 100) / 100`: round to cents, half away from zero upward
(JavaScript `Math.round` is `⌊x + 1/2⌋`). -/
def round2 (x : ℚ) : ℚ := (⌊x * 100 + 1/2⌋ : ℤ) / 100

/-- `Math.round(x * 1e10) / 1e10` applied to the real-valued periodic rate in
`getPeriodicRate`; the result is rational. -/
noncomputable def roundTo10 (x : ℝ) : ℚ := ((⌊x * 10^10 + 1/2⌋ : ℤ) : ℚ) / 10^10

/-- `getPeriodicRate` from `payment.ts`: semi-annual-compounding conversion
`(1 + (annualRate/100)/2)^(2/paymentsPerYear) - 1`, rounded to 10 decimals. -/
noncomputable def getPeriodicRate (annualRate : ℚ) (paymentsPerYear : ℕ) : ℚ :=
  roundTo10 ((1 + ((annualRate : ℝ) / 100) / 2) ^ ((2 : ℝ) / (paymentsPerYear : ℝ)) - 1)

/-- `PaymentCalculationParams` from `types.ts` (the fields consumed by the solver). -/
structure PaymentCalculationParams where
  principal : ℚ
  annualRate : ℚ
  amortizationYears : ℕ
  frequency : PaymentFrequency

/-- The annuity factor `c(1+c)^n / ((1+c)^n - 1)` of the payment formula in
`calculatePayment` (`numerator / denominator` in the source). -/
def annuityFactor (c : ℚ) (n : ℕ) : ℚ :=
  (c * (1 + c) ^ n) / ((1 + c) ^ n - 1)

/-- The inverse factor `((1+c)^n - 1) / (c(1+c)^n)` of `calculateMaxMortgage`. -/
def invAnnuityFactor (c : ℚ) (n : ℕ) : ℚ :=
  ((1 + c) ^ n - 1) / (c * (1 + c) ^ n)

/-- `calculatePayment` from `payment.ts`.  The zero-rate branch is checked
first; for the accelerated frequencies the source recursively computes the
monthly payment (same nonzero rate, frequency forced to `monthly`) and divides
by 2 resp. 4 — that recursive call reduces to the monthly annuity formula and
is inlined here. -/
noncomputable def calculatePayment (params : PaymentCalculationParams) : ℚ :=
  let paymentsPerYear := getPaymentsPerYear params.frequency
  let totalPayments := params.amortizationYears * paymentsPerYear
  if params.annualRate = 0 then
    params.principal / (totalPayments : ℚ)
  else
    match params.frequency with
    | acceleratedBiWeekly =>
        params.principal *
          annuityFactor (getPeriodicRate params.annualRate 12) (params.amortizationYears * 12) / 2
    | acceleratedWeekly =>
        params.principal *
          annuityFactor (getPeriodicRate params.annualRate 12) (params.amortizationYears * 12) / 4
    | _ =>
        params.principal *
          annuityFactor (getPeriodicRate params.annualRate paymentsPerYear) totalPayments

/-- The payments-per-year count whose periodic rate `calculatePayment`
actually applies on the given frequency's path: the two accelerated variants
price off the monthly payment (periodic rate at 12 payments per year), every
other variant uses its own count. -/
def effectivePaymentsPerYear : PaymentFrequency → ℕ
  | acceleratedBiWeekly => 12
  | acceleratedWeekly => 12
  | f => getPaymentsPerYear f

/-- `convertToMonthlyPayment` from `payment.ts`: `payment * paymentsPerYear / 12`. -/
def convertToMonthlyPayment (payment : ℚ) (frequency : PaymentFrequency) : ℚ :=
  payment * (getPaymentsPerYear frequency : ℚ) / 12

/-- `calculateMaxMortgage` from `payment.ts`: inverse of the payment formula. -/
noncomputable def calculateMaxMortgage (monthlyPayment annualRate : ℚ)
    (amortizationYears : ℕ) (frequency : PaymentFrequency) : ℚ :=
  let paymentsPerYear := getPaymentsPerYear frequency
  let totalPayments := amortizationYears * paymentsPerYear
  if annualRate = 0 then
    monthlyPayment * (totalPayments : ℚ)
  else
    monthlyPayment * invAnnuityFactor (getPeriodicRate annualRate paymentsPerYear) totalPayments

/-- `AmortizationEntry` from `types.ts` (minus `paymentDate`). -/
structure AmortizationEntry where
  paymentNumber : ℕ
  payment : ℚ
  principal : ℚ
  interest : ℚ
  balance : ℚ
deriving DecidableEq, Repr

/-- The loop body of `generateAmortizationSchedule`: `steps` is the number of
payments still to emit (the iteration with `steps = 1` is the
`isLastPayment` branch), `i` the 1-based payment number, `balance` the
running balance. -/
def scheduleFrom (pay c : ℚ) : ℕ → ℕ → ℚ → List AmortizationEntry
  | 0, _, _ => []
  | 1, i, balance =>
      let roundedInterest := round2 (balance * c)
      [{ paymentNumber := i
         payment := round2 (roundedInterest + balance)
         principal := round2 balance
         interest := roundedInterest
         balance := 0 }]
  | steps + 2, i, balance =>
      let roundedInterest := round2 (balance * c)
      let principalPayment := pay - roundedInterest
      let newBalance := max 0 (round2 (balance - principalPayment))
      { paymentNumber := i
        payment := pay
        principal := round2 principalPayment
        interest := roundedInterest
        balance := newBalance } :: scheduleFrom pay c (steps + 1) (i + 1) newBalance

/-- `generateAmortizationSchedule` from the sensitivity/schedule module:
level payment and opening balance rounded to cents once, then the
per-payment loop with per-step cent rounding, the zero-clamp on the balance
and the exact-payoff override at the final payment. -/
noncomputable def generateAmortizationSchedule (principal annualRate : ℚ)
    (amortizationYears : ℕ) (frequency : PaymentFrequency) : List AmortizationEntry :=
  let payment := calculatePayment
    ⟨principal, annualRate, amortizationYears, frequency⟩
  let paymentsPerYear := getPaymentsPerYear frequency
  let periodicRate := getPeriodicRate annualRate paymentsPerYear
  let totalPayments := amortizationYears * paymentsPerYear
  scheduleFrom (round2 payment) periodicRate totalPayments 1 (round2 principal)

/-- `DEFAULT_GDS_THRESHOLD` from `affordability.ts`. -/
def DEFAULT_GDS_THRESHOLD : ℚ := 32

/-- `DEFAULT_TDS_THRESHOLD` from `affordability.ts`. -/
def DEFAULT_TDS_THRESHOLD : ℚ := 40

/-- `calculateGDS` from `affordability.ts`; the `Infinity` sentinel for
non-positive income is embedded as `⊤ : WithTop ℚ`. -/
def calculateGDS (monthlyHousingCosts grossMonthlyIncome : ℚ) : WithTop ℚ :=
  if grossMonthlyIncome ≤ 0 then ⊤
  else ((monthlyHousingCosts / grossMonthlyIncome) * 100 : ℚ)

/-- `calculateTDS` from `affordability.ts`. -/
def calculateTDS (monthlyHousingCosts monthlyDebts grossMonthlyIncome : ℚ) : WithTop ℚ :=
  if grossMonthlyIncome ≤ 0 then ⊤
  else (((monthlyHousingCosts + monthlyDebts) / grossMonthlyIncome) * 100 : ℚ)

/-- Cent rounding extended to the `Infinity` sentinel
(JavaScript: `Math.round(Infinity * 100) / 100 == Infinity`). -/
def round2Top : WithTop ℚ → WithTop ℚ := WithTop.map round2

/-- `AffordabilityResult` from `types.ts`; the two ratio fields can carry the
infinite sentinel. -/
structure AffordabilityResult where
  gdsRatio : WithTop ℚ
  tdsRatio : WithTop ℚ
  monthlyHousingCosts : ℚ
  monthlyPayment : ℚ
  isAffordable : Bool
  gdsThreshold : ℚ
  tdsThreshold : ℚ

/-- `calculateAffordability` from `affordability.ts`.  `isAffordable` is
decided on the unrounded ratios; the returned ratio fields are rounded to two
decimals. -/
noncomputable def calculateAffordability (principal annualRate : ℚ)
    (amortizationYears : ℕ) (frequency : PaymentFrequency)
    (grossAnnualIncome monthlyDebts propertyTax heatingCost condoFees
      gdsThreshold tdsThreshold : ℚ) : AffordabilityResult :=
  let payment := calculatePayment
    ⟨principal, annualRate, amortizationYears, frequency⟩
  let monthlyPayment := convertToMonthlyPayment payment frequency
  let grossMonthlyIncome := grossAnnualIncome / 12
  let monthlyHousingCosts := monthlyPayment + propertyTax + heatingCost + condoFees * 0.5
  let gdsRatio := calculateGDS monthlyHousingCosts grossMonthlyIncome
  let tdsRatio := calculateTDS monthlyHousingCosts monthlyDebts grossMonthlyIncome
  let isAffordable :=
    decide (gdsRatio ≤ (gdsThreshold : WithTop ℚ)) &&
      decide (tdsRatio ≤ (tdsThreshold : WithTop ℚ))
  { gdsRatio := round2Top gdsRatio
    tdsRatio := round2Top tdsRatio
    monthlyHousingCosts := round2 monthlyHousingCosts
    monthlyPayment := round2 monthlyPayment
    isAffordable := isAffordable
    gdsThreshold := gdsThreshold
    tdsThreshold := tdsThreshold }

/-- `STRESS_TEST_RATE_INCREASE` from `stress-test.ts`. -/
def STRESS_TEST_RATE_INCREASE : ℚ := 2

/-- `MINIMUM_QUALIFYING_RATE` from `stress-test.ts`. -/
def MINIMUM_QUALIFYING_RATE : ℚ := 5.25

/-- `getStressTestRate` from `stress-test.ts`. -/
def getStressTestRate (contractRate : ℚ) : ℚ :=
  max (contractRate + STRESS_TEST_RATE_INCREASE) MINIMUM_QUALIFYING_RATE

/-- `StressTestResult` from `types.ts`. -/
structure StressTestResult where
  contractRate : ℚ
  stressRate : ℚ
  monthlyPaymentAtContract : ℚ
  monthlyPaymentAtStress : ℚ
  maxMortgageAtContract : ℚ
  maxMortgageAtStress : ℚ
  passesStressTest : Bool
  affordabilityAtStress : AffordabilityResult

/-- `performStressTest` from `stress-test.ts`: affordability at the stressed
rate, and max-borrowable principal at both rates from the common TDS-40%
payment budget. -/
noncomputable def performStressTest (principal contractRate : ℚ)
    (amortizationYears : ℕ) (frequency : PaymentFrequency)
    (grossAnnualIncome monthlyDebts propertyTax heatingCost condoFees : ℚ) :
    StressTestResult :=
  let stressRate := getStressTestRate contractRate
  let paymentAtContract := calculatePayment
    ⟨principal, contractRate, amortizationYears, frequency⟩
  let monthlyPaymentAtContract := convertToMonthlyPayment paymentAtContract frequency
  let paymentAtStress := calculatePayment
    ⟨principal, stressRate, amortizationYears, frequency⟩
  let monthlyPaymentAtStress := convertToMonthlyPayment paymentAtStress frequency
  let affordabilityAtStress := calculateAffordability principal stressRate
    amortizationYears frequency grossAnnualIncome monthlyDebts propertyTax
    heatingCost condoFees DEFAULT_GDS_THRESHOLD DEFAULT_TDS_THRESHOLD
  let grossMonthlyIncome := grossAnnualIncome / 12
  let maxTotalDebt := 0.4 * grossMonthlyIncome
  let maxHousingCosts := maxTotalDebt - monthlyDebts
  let otherHousingCosts := propertyTax + heatingCost + condoFees * 0.5
  let maxPaymentAtContract := max 0 (maxHousingCosts - otherHousingCosts)
  let maxMortgageAtContract := calculateMaxMortgage maxPaymentAtContract
    contractRate amortizationYears frequency
  let maxMortgageAtStress := calculateMaxMortgage maxPaymentAtContract
    stressRate amortizationYears frequency
  { contractRate := round2 contractRate
    stressRate := round2 stressRate
    monthlyPaymentAtContract := round2 monthlyPaymentAtContract
    monthlyPaymentAtStress := round2 monthlyPaymentAtStress
    maxMortgageAtContract := round2 maxMortgageAtContract
    maxMortgageAtStress := round2 maxMortgageAtStress
    passesStressTest := affordabilityAtStress.isAffordable
    affordabilityAtStress := affordabilityAtStress }

/-! ## Rounding helper lemmas -/

/-- `x` is a whole number of cents. -/
def IsCentMultiple (x : ℚ) : Prop := ∃ k : ℤ, x = (k : ℚ) / 100

theorem isCentMultiple_round2 (x : ℚ) : IsCentMultiple (round2 x) :=
  ⟨⌊x * 100 + 1/2⌋, rfl⟩

theorem isCentMultiple_zero : IsCentMultiple 0 := ⟨0, by norm_num⟩

theorem IsCentMultiple.add {x y : ℚ} (hx : IsCentMultiple x) (hy : IsCentMultiple y) :
    IsCentMultiple (x + y) := by
  obtain ⟨k, rfl⟩ := hx
  obtain ⟨m, rfl⟩ := hy
  exact ⟨k + m, by push_cast; ring⟩

theorem IsCentMultiple.sub {x y : ℚ} (hx : IsCentMultiple x) (hy : IsCentMultiple y) :
    IsCentMultiple (x - y) := by
  obtain ⟨k, rfl⟩ := hx
  obtain ⟨m, rfl⟩ := hy
  exact ⟨k - m, by push_cast; ring⟩

theorem IsCentMultiple.max_zero {x : ℚ} (hx : IsCentMultiple x) :
    IsCentMultiple (max 0 x) := by
  rcases le_total 0 x with h | h
  · rwa [max_eq_right h]
  · rw [max_eq_left h]; exact isCentMultiple_zero

theorem IsCentMultiple.round2_eq {x : ℚ} (h : IsCentMultiple x) : round2 x = x := by
  obtain ⟨k, rfl⟩ := h
  unfold round2
  rw [div_mul_cancel₀ _ (by norm_num : (100 : ℚ) ≠ 0), Int.floor_int_add]
  norm_num [Int.floor_eq_zero_iff, Set.mem_Ico]

theorem round2_mono {x y : ℚ} (h : x ≤ y) : round2 x ≤ round2 y := by
  unfold round2
  have h1 : ⌊x * 100 + 1/2⌋ ≤ ⌊y * 100 + 1/2⌋ := Int.floor_le_floor (by linarith)
  have h2 : ((⌊x * 100 + 1/2⌋ : ℤ) : ℚ) ≤ ((⌊y * 100 + 1/2⌋ : ℤ) : ℚ) := by exact_mod_cast h1
  linarith

theorem abs_round2_sub_le (x : ℚ) : |round2 x - x| ≤ 1/200 := by
  unfold round2
  have h1 : ((⌊x * 100 + 1/2⌋ : ℤ) : ℚ) ≤ x * 100 + 1/2 := Int.floor_le _
  have h2 : x * 100 + 1/2 - 1 < ((⌊x * 100 + 1/2⌋ : ℤ) : ℚ) := Int.sub_one_lt_floor _
  rw [abs_le]
  constructor <;> [linarith; linarith]

theorem round2_nonneg {x : ℚ} (h : 0 ≤ x) : 0 ≤ round2 x := by
  unfold round2
  have : (0 : ℤ) ≤ ⌊x * 100 + 1/2⌋ := by
    rw [Int.le_floor]; push_cast; linarith
  positivity

/-! ## Schedule structure lemmas -/

theorem scheduleFrom_length (pay c : ℚ) :
    ∀ (steps i : ℕ) (balance : ℚ), (scheduleFrom pay c steps i balance).length = steps
  | 0, _, _ => rfl
  | 1, _, _ => rfl
  | steps + 2, i, balance => by
      simp only [scheduleFrom, List.length_cons,
        scheduleFrom_length pay c (steps + 1)]

theorem scheduleFrom_ne_nil (pay c : ℚ) (steps i : ℕ) (balance : ℚ)
    (h : 1 ≤ steps) : scheduleFrom pay c steps i balance ≠ [] := by
  intro hnil
  have hlen := scheduleFrom_length pay c steps i balance
  rw [hnil] at hlen
  simp only [List.length_nil] at hlen
  omega

theorem scheduleFrom_getLast_balance (pay c : ℚ) :
    ∀ (steps i : ℕ) (balance : ℚ), 1 ≤ steps →
      ((scheduleFrom pay c steps i balance).map AmortizationEntry.balance).getLast? = some 0
  | 1, i, balance, _ => rfl
  | steps + 2, i, balance, _ => by
      have ih := scheduleFrom_getLast_balance pay c (steps + 1) (i + 1)
        (max 0 (round2 (balance - (pay - round2 (balance * c))))) (by omega)
      obtain ⟨hd, tl, htl⟩ := List.exists_cons_of_ne_nil
        (scheduleFrom_ne_nil pay c (steps + 1) (i + 1)
          (max 0 (round2 (balance - (pay - round2 (balance * c))))) (by omega))
      simp only [scheduleFrom]
      rw [htl] at ih ⊢
      simpa [List.getLast?_cons_cons] using ih

theorem scheduleFrom_entry_invariants (pay c : ℚ) (hpay : IsCentMultiple pay) :
    ∀ (steps i : ℕ) (balance : ℚ), IsCentMultiple balance →
      ∀ e ∈ scheduleFrom pay c steps i balance,
        e.interest + e.principal = e.payment ∧ 0 ≤ e.balance
  | 0, _, _, _, e, he => absurd he (List.not_mem_nil e)
  | 1, i, balance, hbal, e, he => by
      have hri : IsCentMultiple (round2 (balance * c)) := isCentMultiple_round2 _
      simp only [scheduleFrom, List.mem_singleton] at he
      subst he
      refine ⟨?_, le_refl 0⟩
      simp only []
      rw [hbal.round2_eq, (hri.add hbal).round2_eq]
  | steps + 2, i, balance, hbal, e, he => by
      have hri : IsCentMultiple (round2 (balance * c)) := isCentMultiple_round2 _
      simp only [scheduleFrom, List.mem_cons] at he
      rcases he with he | he
      · subst he
        refine ⟨?_, le_max_left 0 _⟩
        simp only []
        rw [(hpay.sub hri).round2_eq]
        ring
      · exact scheduleFrom_entry_invariants pay c hpay (steps + 1) (i + 1) _
          ((isCentMultiple_round2 _).max_zero) e he

/-- The zero-clamp on the running balance never fires during the first
`steps` payments: at every non-final step the balance stays at least the
formula-derived principal portion. -/
def noClampB (pay c : ℚ) : ℕ → ℚ → Bool
  | 0, _ => true
  | 1, _ => true
  | steps + 2, balance =>
      let roundedInterest := round2 (balance * c)
      let principalPayment := pay - roundedInterest
      decide (0 ≤ balance - principalPayment) &&
        noClampB pay c (steps + 1) (max 0 (round2 (balance - principalPayment)))

theorem scheduleFrom_principal_sum (pay c : ℚ) (hpay : IsCentMultiple pay) :
    ∀ (steps i : ℕ) (balance : ℚ), IsCentMultiple balance → 1 ≤ steps →
      noClampB pay c steps balance = true →
      ((scheduleFrom pay c steps i balance).map AmortizationEntry.principal).sum = balance
  | 1, _, balance, hbal, _, _ => by
      simp [scheduleFrom, hbal.round2_eq]
  | steps + 2, i, balance, hbal, _, hnc => by
      simp only [noClampB, Bool.and_eq_true, decide_eq_true_eq] at hnc
      obtain ⟨hge, hrest⟩ := hnc
      have hri : IsCentMultiple (round2 (balance * c)) := isCentMultiple_round2 _
      have hpp : IsCentMultiple (pay - round2 (balance * c)) := hpay.sub hri
      have hsub : IsCentMultiple (balance - (pay - round2 (balance * c))) := hbal.sub hpp
      have hnb : max 0 (round2 (balance - (pay - round2 (balance * c))))
          = balance - (pay - round2 (balance * c)) := by
        rw [hsub.round2_eq, max_eq_right hge]
      have ih := scheduleFrom_principal_sum pay c hpay (steps + 1) (i + 1) _
        ((isCentMultiple_round2 _).max_zero) (by omega) hrest
      simp only [scheduleFrom, List.map_cons, List.sum_cons]
      rw [ih, hpp.round2_eq, hnb]
      ring

theorem generateAmortizationSchedule_length (p r : ℚ) (y : ℕ) (f : PaymentFrequency) :
    (generateAmortizationSchedule p r y f).length = y * getPaymentsPerYear f := by
  unfold generateAmortizationSchedule
  exact scheduleFrom_length _ _ _ _ _

/-! ## Zero-rate lemmas -/

theorem getPeriodicRate_zero (ppy : ℕ) : getPeriodicRate 0 ppy = 0 := by
  have h1 : (1 + ((0 : ℚ) : ℝ) / 100 / 2) = 1 := by norm_num
  unfold getPeriodicRate roundTo10
  rw [h1, Real.one_rpow]
  norm_num [Int.floor_eq_zero_iff, Set.mem_Ico]

theorem calculatePayment_zero_rate (p : ℚ) (y : ℕ) (f : PaymentFrequency) :
    calculatePayment ⟨p, 0, y, f⟩ = p / ((y * getPaymentsPerYear f : ℕ) : ℚ) := by
  simp [calculatePayment]

theorem getPaymentsPerYear_pos (f : PaymentFrequency) : 0 < getPaymentsPerYear f := by
  cases f <;> norm_num [getPaymentsPerYear]

/-! ## C1 -/

/-- C1: for every valid `LoanTerms` (positive principal, positive integer
amortization, one of the six frequencies), `generateAmortizationSchedule`
returns exactly `amortizationYears * paymentsPerYear frequency` entries and
the final entry's balance is exactly `0`. -/
theorem C1_schedule_length_and_final_balance (p r : ℚ) (y : ℕ) (f : PaymentFrequency)
    (_hp : 0 < p) (hy : 0 < y) :
    (generateAmortizationSchedule p r y f).length = y * getPaymentsPerYear f ∧
      ((generateAmortizationSchedule p r y f).map AmortizationEntry.balance).getLast? =
        some 0 := by
  refine ⟨generateAmortizationSchedule_length p r y f, ?_⟩
  unfold generateAmortizationSchedule
  apply scheduleFrom_getLast_balance
  have := getPaymentsPerYear_pos f
  exact Nat.one_le_iff_ne_zero.mpr (Nat.mul_ne_zero (by omega) (by omega))

/-- Witness for C1 at a concrete valid input. -/
theorem C1_schedule_length_and_final_balance_witness :
    0 < (1000 : ℚ) ∧ 0 < 1 ∧
      ((generateAmortizationSchedule 1000 0 1 PaymentFrequency.monthly).length =
          1 * getPaymentsPerYear PaymentFrequency.monthly ∧
        ((generateAmortizationSchedule 1000 0 1 PaymentFrequency.monthly).map
            AmortizationEntry.balance).getLast? = some 0) :=
  ⟨by norm_num, by norm_num,
    C1_schedule_length_and_final_balance 1000 0 1 PaymentFrequency.monthly
      (by norm_num) (by norm_num)⟩

/-! ## C3 -/

/-- C3: every entry of every generated schedule satisfies
`interest + principal = payment` (exactly, hence to the cent) and
`0 ≤ balance`; the balance is guaranteed to be `0` at the final entry. -/
theorem C3_entry_invariants (p r : ℚ) (y : ℕ) (f : PaymentFrequency) (hy : 0 < y) :
    (∀ e ∈ generateAmortizationSchedule p r y f,
        e.interest + e.principal = e.payment ∧ 0 ≤ e.balance) ∧
      ((generateAmortizationSchedule p r y f).map AmortizationEntry.balance).getLast? =
        some 0 := by
  constructor
  · unfold generateAmortizationSchedule
    exact scheduleFrom_entry_invariants _ _ (isCentMultiple_round2 _) _ _ _
      (isCentMultiple_round2 _)
  · unfold generateAmortizationSchedule
    apply scheduleFrom_getLast_balance
    have := getPaymentsPerYear_pos f
    exact Nat.one_le_iff_ne_zero.mpr (Nat.mul_ne_zero (by omega) (by omega))

/-- Witness for C3 at a concrete valid input. -/
theorem C3_entry_invariants_witness :
    0 < 25 ∧
      ((∀ e ∈ generateAmortizationSchedule 400000 (11/2) 25 PaymentFrequency.monthly,
          e.interest + e.principal = e.payment ∧ 0 ≤ e.balance) ∧
        ((generateAmortizationSchedule 400000 (11/2) 25 PaymentFrequency.monthly).map
            AmortizationEntry.balance).getLast? = some 0) :=
  ⟨by norm_num, C3_entry_invariants 400000 (11/2) 25 PaymentFrequency.monthly (by norm_num)⟩

/-! ## C2 -/

/-- C2 counterexample: `principal = 0.07`, rate `0`, one year of monthly
payments is a valid `LoanTerms` (positive principal, positive term), yet the
sum of the schedule's principal portions is `0.11`, off by 4 cents: the level
payment `0.07/12` rounds up to one cent, the balance is clamped to `0` after
seven payments, and the remaining non-final entries still record a one-cent
principal portion each. -/
theorem C2_counterexample :
    0 < (7/100 : ℚ) ∧
      |((generateAmortizationSchedule (7/100) 0 1 PaymentFrequency.monthly).map
          AmortizationEntry.principal).sum - 7/100| > 1/100 := by
  have hsum : ((generateAmortizationSchedule (7/100) 0 1 PaymentFrequency.monthly).map
      AmortizationEntry.principal).sum = 11/100 := by
    norm_num [generateAmortizationSchedule, getPeriodicRate_zero, calculatePayment_zero_rate,
      getPaymentsPerYear, scheduleFrom, round2]
  refine ⟨by norm_num, ?_⟩
  rw [hsum, show (11/100 : ℚ) - 7/100 = 1/25 by norm_num,
    abs_of_pos (show (0 : ℚ) < 1/25 by norm_num)]
  norm_num

/-- C2 (amended): provided the running balance is never clamped at zero
before the final payment (`noClampB`), the sum of the principal portions over
the full schedule equals the input principal to within one cent. -/
theorem C2_amended_principal_sum (p r : ℚ) (y : ℕ) (f : PaymentFrequency) (hy : 0 < y)
    (hnc : noClampB (round2 (calculatePayment ⟨p, r, y, f⟩))
        (getPeriodicRate r (getPaymentsPerYear f)) (y * getPaymentsPerYear f)
        (round2 p) = true) :
    |((generateAmortizationSchedule p r y f).map AmortizationEntry.principal).sum - p|
      ≤ 1/100 := by
  have hsteps : 1 ≤ y * getPaymentsPerYear f := by
    have := getPaymentsPerYear_pos f
    exact Nat.one_le_iff_ne_zero.mpr (Nat.mul_ne_zero (by omega) (by omega))
  unfold generateAmortizationSchedule
  rw [scheduleFrom_principal_sum _ _ (isCentMultiple_round2 _) _ 1 _
    (isCentMultiple_round2 _) hsteps hnc]
  calc |round2 p - p| ≤ 1/200 := abs_round2_sub_le p
    _ ≤ 1/100 := by norm_num

/-- Witness for the amended C2 at a concrete clamp-free input. -/
theorem C2_amended_principal_sum_witness :
    0 < 1 ∧
      noClampB (round2 (calculatePayment ⟨1200, 0, 1, PaymentFrequency.monthly⟩))
        (getPeriodicRate 0 (getPaymentsPerYear PaymentFrequency.monthly))
        (1 * getPaymentsPerYear PaymentFrequency.monthly) (round2 1200) = true ∧
      |((generateAmortizationSchedule 1200 0 1 PaymentFrequency.monthly).map
          AmortizationEntry.principal).sum - 1200| ≤ 1/100 := by
  have hnc : noClampB (round2 (calculatePayment ⟨1200, 0, 1, PaymentFrequency.monthly⟩))
      (getPeriodicRate 0 (getPaymentsPerYear PaymentFrequency.monthly))
      (1 * getPaymentsPerYear PaymentFrequency.monthly) (round2 1200) = true := by
    norm_num [calculatePayment_zero_rate, getPeriodicRate_zero, getPaymentsPerYear,
      noClampB, round2]
  exact ⟨by norm_num, hnc,
    C2_amended_principal_sum 1200 0 1 PaymentFrequency.monthly (by norm_num) hnc⟩

/-! ## C9 -/

/-- C9 counterexample: a non-positive principal is not rejected —
`generateAmortizationSchedule` still returns a full 12-entry schedule for
`principal = -100`. -/
theorem C9_counterexample :
    (-100 : ℚ) ≤ 0 ∧
      (generateAmortizationSchedule (-100) 0 1 PaymentFrequency.monthly).length = 12 ∧
      generateAmortizationSchedule (-100) 0 1 PaymentFrequency.monthly ≠ [] := by
  have hlen := generateAmortizationSchedule_length (-100) 0 1 PaymentFrequency.monthly
  norm_num [getPaymentsPerYear] at hlen
  refine ⟨by norm_num, hlen, ?_⟩
  intro h
  rw [h] at hlen
  simp at hlen

/-- C9 (amended): the schedule generator performs no input validation and is
total: for every input — including non-positive principal — it returns a
schedule of exactly `years * paymentsPerYear` entries (empty when
`years = 0`), and every frequency variant maps to a positive payments-per-year
count; rejecting invalid input is the caller's responsibility. -/
theorem C9_amended_no_validation (p r : ℚ) (y : ℕ) (f : PaymentFrequency) :
    (generateAmortizationSchedule p r y f).length = y * getPaymentsPerYear f ∧
      0 < getPaymentsPerYear f :=
  ⟨generateAmortizationSchedule_length p r y f, getPaymentsPerYear_pos f⟩

/-! ## C4 -/

/-- C4 counterexample: at nominal rate exactly `0` the zero-rate branch of
`calculatePayment` returns `principal / (26 * years)` before the accelerated
branch is reached, so the accelerated-bi-weekly payment (`1200`) is not the
monthly payment halved (`1300`). -/
theorem C4_counterexample :
    calculatePayment ⟨31200, 0, 1, PaymentFrequency.acceleratedBiWeekly⟩ ≠
      calculatePayment ⟨31200, 0, 1, PaymentFrequency.monthly⟩ / 2 := by
  rw [calculatePayment_zero_rate, calculatePayment_zero_rate]
  norm_num [getPaymentsPerYear]

/-- C4 (amended): for every nonzero nominal rate, the accelerated-bi-weekly
payment equals the monthly payment divided by 2 and the accelerated-weekly
payment equals the monthly payment divided by 4; at rate exactly `0` the
zero-rate branch takes precedence and returns `principal / n` with
`n = 26·years` resp. `52·years` instead. -/
theorem C4_amended_accelerated_payment (p r : ℚ) (y : ℕ) (hr : r ≠ 0) :
    calculatePayment ⟨p, r, y, PaymentFrequency.acceleratedBiWeekly⟩ =
        calculatePayment ⟨p, r, y, PaymentFrequency.monthly⟩ / 2 ∧
      calculatePayment ⟨p, r, y, PaymentFrequency.acceleratedWeekly⟩ =
        calculatePayment ⟨p, r, y, PaymentFrequency.monthly⟩ / 4 := by
  unfold calculatePayment
  simp [hr, getPaymentsPerYear]

/-- Witness for the amended C4 at a concrete nonzero rate. -/
theorem C4_amended_accelerated_payment_witness :
    (11/2 : ℚ) ≠ 0 ∧
      (calculatePayment ⟨400000, 11/2, 25, PaymentFrequency.acceleratedBiWeekly⟩ =
          calculatePayment ⟨400000, 11/2, 25, PaymentFrequency.monthly⟩ / 2 ∧
        calculatePayment ⟨400000, 11/2, 25, PaymentFrequency.acceleratedWeekly⟩ =
          calculatePayment ⟨400000, 11/2, 25, PaymentFrequency.monthly⟩ / 4) :=
  ⟨by norm_num, C4_amended_accelerated_payment 400000 (11/2) 25 (by norm_num)⟩

/-! ## C7 -/

/-- C7: `getStressTestRate contractRate = max (contractRate + 2) 5.25`, with
`getStressTestRate 3 = 5.25` (floor dominates) and `getStressTestRate 4 = 6`
(markup dominates). -/
theorem C7_stress_test_rate :
    (∀ c : ℚ, getStressTestRate c = max (c + 2) (21/4)) ∧
      getStressTestRate 3 = 21/4 ∧ getStressTestRate 4 = 6 := by
  refine ⟨fun c => ?_, ?_, ?_⟩ <;>
    norm_num [getStressTestRate, STRESS_TEST_RATE_INCREASE, MINIMUM_QUALIFYING_RATE, max_def]

/-! ## C6 -/

/-- C6: with non-positive gross annual income, `calculateAffordability`
returns the infinite sentinel for both ratios and `isAffordable = false`
(without any error); with positive income, `isAffordable` holds exactly when
the computed GDS ratio is at most the GDS threshold and the computed TDS
ratio is at most the TDS threshold. -/
theorem C6_affordability_sentinel_and_threshold (p r : ℚ) (y : ℕ) (f : PaymentFrequency)
    (inc debts tax heat condo gT tT : ℚ) :
    (inc ≤ 0 →
      (calculateAffordability p r y f inc debts tax heat condo gT tT).gdsRatio = ⊤ ∧
        (calculateAffordability p r y f inc debts tax heat condo gT tT).tdsRatio = ⊤ ∧
        (calculateAffordability p r y f inc debts tax heat condo gT tT).isAffordable =
          false) ∧
      (0 < inc →
        ((calculateAffordability p r y f inc debts tax heat condo gT tT).isAffordable =
            true ↔
          calculateGDS
              (convertToMonthlyPayment (calculatePayment ⟨p, r, y, f⟩) f + tax + heat +
                condo * 0.5) (inc / 12) ≤ (gT : WithTop ℚ) ∧
            calculateTDS
              (convertToMonthlyPayment (calculatePayment ⟨p, r, y, f⟩) f + tax + heat +
                condo * 0.5) debts (inc / 12) ≤ (tT : WithTop ℚ))) := by
  constructor
  · intro hinc
    have hgmi : inc / 12 ≤ 0 := div_nonpos_of_nonpos_of_nonneg hinc (by norm_num)
    unfold calculateAffordability calculateGDS calculateTDS
    simp [if_pos hgmi, round2Top]
  · intro _
    unfold calculateAffordability
    simp [Bool.and_eq_true, decide_eq_true_eq]

/-- Witness for C6 at a concrete non-positive income. -/
theorem C6_affordability_sentinel_and_threshold_witness :
    (calculateAffordability 1000 5 10 PaymentFrequency.monthly 0 0 0 0 0 32 40).gdsRatio =
        ⊤ ∧
      (calculateAffordability 1000 5 10 PaymentFrequency.monthly 0 0 0 0 0 32 40).tdsRatio =
        ⊤ ∧
      (calculateAffordability 1000 5 10 PaymentFrequency.monthly 0 0 0 0 0
          32 40).isAffordable = false :=
  (C6_affordability_sentinel_and_threshold 1000 5 10 PaymentFrequency.monthly 0 0 0 0 0
    32 40).1 (le_refl 0)

/-! ## C10 -/

/-- C10: `isAffordable` is decided on the unrounded ratios: at principal
`1200`, rate `0`, 1 year monthly, income `12000`, property tax `220.01`, the
unrounded GDS ratio is `32.001` (fails the 32 threshold) while the returned
rounded ratio is exactly `32` (passes), so both returned ratios are within
their thresholds yet `isAffordable` is `false`. -/
theorem C10_unrounded_ratio_decides :
    (calculateAffordability 1200 0 1 PaymentFrequency.monthly 12000 0 (22001/100) 0 0
        32 40).gdsRatio ≤ ((32 : ℚ) : WithTop ℚ) ∧
      (calculateAffordability 1200 0 1 PaymentFrequency.monthly 12000 0 (22001/100) 0 0
          32 40).tdsRatio ≤ ((40 : ℚ) : WithTop ℚ) ∧
      (calculateAffordability 1200 0 1 PaymentFrequency.monthly 12000 0 (22001/100) 0 0
          32 40).isAffordable = false := by
  unfold calculateAffordability
  norm_num [calculatePayment_zero_rate, convertToMonthlyPayment, getPaymentsPerYear,
    calculateGDS, calculateTDS, round2Top, round2, decide_eq_false_iff_not,
    WithTop.coe_le_coe]
  refine ⟨?_, fun h => absurd h ?_⟩
  · exact_mod_cast (by norm_num : (32 : ℚ) ≤ 40)
  · rw [show (32 : WithTop ℚ) = ((32 : ℚ) : WithTop ℚ) from (WithTop.coe_ofNat 32).symm,
      WithTop.coe_le_coe]
    norm_num

/-! ## Annuity-factor algebra -/

theorem invAnnuityFactor_zero (n : ℕ) : invAnnuityFactor 0 n = 0 := by
  simp [invAnnuityFactor]

theorem geom_discount_sum_mul (c : ℚ) (hc : (1 + c) ≠ 0) (n : ℕ) :
    (∑ i ∈ Finset.range n, ((1 + c)⁻¹) ^ (i + 1)) * (c * (1 + c) ^ n) =
      (1 + c) ^ n - 1 := by
  induction n with
  | zero => simp
  | succ n ih =>
      have hx : ((1 + c)⁻¹) ^ (n + 1) * (1 + c) ^ (n + 1) = 1 := by
        rw [← mul_pow, inv_mul_cancel₀ hc, one_pow]
      rw [Finset.sum_range_succ, add_mul,
        show (∑ i ∈ Finset.range n, ((1 + c)⁻¹) ^ (i + 1)) * (c * (1 + c) ^ (n + 1)) =
          (∑ i ∈ Finset.range n, ((1 + c)⁻¹) ^ (i + 1)) * (c * (1 + c) ^ n) * (1 + c) by
          ring,
        ih,
        show ((1 + c)⁻¹) ^ (n + 1) * (c * (1 + c) ^ (n + 1)) =
          c * (((1 + c)⁻¹) ^ (n + 1) * (1 + c) ^ (n + 1)) by ring,
        hx]
      ring

theorem invAnnuityFactor_eq_sum (c : ℚ) (hc : 0 < c) (n : ℕ) :
    invAnnuityFactor c n = ∑ i ∈ Finset.range n, ((1 + c)⁻¹) ^ (i + 1) := by
  have h1 : (0 : ℚ) < 1 + c := by linarith
  have hne : c * (1 + c) ^ n ≠ 0 := by positivity
  unfold invAnnuityFactor
  rw [eq_comm, eq_div_iff hne]
  exact geom_discount_sum_mul c (by positivity) n

theorem annuityFactor_eq_inv (c : ℚ) (n : ℕ) :
    annuityFactor c n = (invAnnuityFactor c n)⁻¹ := by
  unfold annuityFactor invAnnuityFactor
  rw [inv_div]

theorem sum_discount_le_card (c : ℚ) (hc : 0 ≤ c) (n : ℕ) :
    ∑ i ∈ Finset.range n, ((1 + c)⁻¹) ^ (i + 1) ≤ (n : ℚ) := by
  calc ∑ i ∈ Finset.range n, ((1 + c)⁻¹) ^ (i + 1)
      ≤ ∑ _i ∈ Finset.range n, (1 : ℚ) := by
        refine Finset.sum_le_sum fun i _ => ?_
        exact pow_le_one₀ (by positivity) (inv_le_one_of_one_le₀ (by linarith))
    _ = (n : ℚ) := by simp

theorem invAnnuityFactor_le_card (c : ℚ) (hc : 0 ≤ c) (n : ℕ) :
    invAnnuityFactor c n ≤ (n : ℚ) := by
  rcases eq_or_lt_of_le hc with h | h
  · rw [← h, invAnnuityFactor_zero]
    exact_mod_cast Nat.zero_le n
  · rw [invAnnuityFactor_eq_sum c h n]
    exact sum_discount_le_card c hc n

theorem invAnnuityFactor_anti (c1 c2 : ℚ) (h1 : 0 < c1) (h12 : c1 ≤ c2) (n : ℕ) :
    invAnnuityFactor c2 n ≤ invAnnuityFactor c1 n := by
  rw [invAnnuityFactor_eq_sum c1 h1, invAnnuityFactor_eq_sum c2 (lt_of_lt_of_le h1 h12)]
  refine Finset.sum_le_sum fun i _ => ?_
  have ha : (0 : ℚ) < 1 + c1 := by linarith
  exact pow_le_pow_left₀ (inv_nonneg.mpr (by linarith)) (inv_anti₀ ha (by linarith)) _

theorem sum_discount_pos (c : ℚ) (hc : 0 < c) {n : ℕ} (hn : 1 ≤ n) :
    0 < ∑ i ∈ Finset.range n, ((1 + c)⁻¹) ^ (i + 1) := by
  refine Finset.sum_pos (fun i _ => pow_pos (inv_pos.mpr (by linarith)) _) ?_
  exact Finset.nonempty_range_iff.mpr (by omega)

theorem annuityFactor_strict_mono_in_rate (c1 c2 : ℚ) (h1 : 0 < c1) (h12 : c1 < c2)
    {n : ℕ} (hn : 1 ≤ n) : annuityFactor c1 n < annuityFactor c2 n := by
  have h2 : 0 < c2 := lt_trans h1 h12
  rw [annuityFactor_eq_inv, annuityFactor_eq_inv,
    invAnnuityFactor_eq_sum c1 h1, invAnnuityFactor_eq_sum c2 h2]
  have hlt : ∑ i ∈ Finset.range n, ((1 + c2)⁻¹) ^ (i + 1) <
      ∑ i ∈ Finset.range n, ((1 + c1)⁻¹) ^ (i + 1) := by
    refine Finset.sum_lt_sum_of_nonempty (Finset.nonempty_range_iff.mpr (by omega))
      fun i _ => ?_
    have ha : (0 : ℚ) < 1 + c1 := by linarith
    exact pow_lt_pow_left₀ (inv_strictAnti₀ ha (by linarith)) (inv_nonneg.mpr (by linarith)) (by omega)
  exact inv_strictAnti₀ (sum_discount_pos c2 h2 hn) hlt

/-! ## Periodic-rate bounds (real-exponent analysis) -/

theorem getPeriodicRate_mono (r1 r2 : ℚ) (ppy : ℕ) (h0 : 0 ≤ r1) (h : r1 ≤ r2) :
    getPeriodicRate r1 ppy ≤ getPeriodicRate r2 ppy := by
  unfold getPeriodicRate roundTo10
  have hr0 : (0 : ℝ) ≤ (r1 : ℝ) := by exact_mod_cast h0
  have hr : (r1 : ℝ) ≤ (r2 : ℝ) := by exact_mod_cast h
  have hb : (0 : ℝ) ≤ 1 + (r1 : ℝ) / 100 / 2 := by linarith
  have he : (0 : ℝ) ≤ (2 : ℝ) / (ppy : ℝ) := div_nonneg (by norm_num) (Nat.cast_nonneg _)
  have hpow := Real.rpow_le_rpow hb (by linarith : 1 + (r1 : ℝ) / 100 / 2 ≤
    1 + (r2 : ℝ) / 100 / 2) he
  have hfl : ⌊((1 + (r1 : ℝ) / 100 / 2) ^ ((2 : ℝ) / (ppy : ℝ)) - 1) * 10 ^ 10 + 1/2⌋ ≤
      ⌊((1 + (r2 : ℝ) / 100 / 2) ^ ((2 : ℝ) / (ppy : ℝ)) - 1) * 10 ^ 10 + 1/2⌋ :=
    Int.floor_le_floor (by linarith)
  have hq : ((⌊((1 + (r1 : ℝ) / 100 / 2) ^ ((2 : ℝ) / (ppy : ℝ)) - 1) * 10 ^ 10 + 1/2⌋ :
      ℤ) : ℚ) ≤
      ((⌊((1 + (r2 : ℝ) / 100 / 2) ^ ((2 : ℝ) / (ppy : ℝ)) - 1) * 10 ^ 10 + 1/2⌋ :
      ℤ) : ℚ) := by
    exact_mod_cast hfl
  linarith

theorem getPeriodicRate_nonneg (r : ℚ) (ppy : ℕ) (h : 0 ≤ r) :
    0 ≤ getPeriodicRate r ppy :=
  le_trans (le_of_eq (getPeriodicRate_zero ppy).symm)
    (getPeriodicRate_mono 0 r ppy le_rfl h)

theorem getPeriodicRate_tiny (r : ℚ) (h0 : 0 ≤ r) (h1 : r ≤ 1/10^8) :
    getPeriodicRate r 12 = 0 := by
  unfold getPeriodicRate roundTo10
  have hr : (0 : ℝ) ≤ (r : ℝ) := by exact_mod_cast h0
  have hr1 : (r : ℝ) ≤ 1/10^8 := by
    calc (r : ℝ) ≤ ((1/10^8 : ℚ) : ℝ) := by exact_mod_cast h1
      _ = 1/10^8 := by norm_num
  have hb : (1 : ℝ) ≤ 1 + (r : ℝ) / 100 / 2 := by linarith
  have he : (0 : ℝ) ≤ (2 : ℝ) / ((12 : ℕ) : ℝ) := by norm_num
  have hlow : (1 : ℝ) ≤ (1 + (r : ℝ) / 100 / 2) ^ ((2 : ℝ) / ((12 : ℕ) : ℝ)) := by
    calc (1 : ℝ) = (1 + (r : ℝ) / 100 / 2) ^ (0 : ℝ) := (Real.rpow_zero _).symm
      _ ≤ _ := Real.rpow_le_rpow_of_exponent_le hb he
  have hnum : (1 + 5/10^11 : ℝ) ≤ (1 + 1/10^11) ^ (6 : ℕ) := by norm_num
  have hpow6 : (1 + (r : ℝ) / 100 / 2) ≤ (1 + 1/10^11) ^ (6 : ℕ) := by linarith
  have hup : (1 + (r : ℝ) / 100 / 2) ^ ((2 : ℝ) / ((12 : ℕ) : ℝ)) ≤ 1 + 1/10^11 := by
    calc (1 + (r : ℝ) / 100 / 2) ^ ((2 : ℝ) / ((12 : ℕ) : ℝ))
        ≤ ((1 + 1/10^11 : ℝ) ^ (6 : ℕ)) ^ ((2 : ℝ) / ((12 : ℕ) : ℝ)) :=
          Real.rpow_le_rpow (by linarith) hpow6 he
      _ = (1 + 1/10^11 : ℝ) := by
          rw [← Real.rpow_natCast (1 + 1/10^11 : ℝ) 6, ← Real.rpow_mul (by norm_num)]
          norm_num [Real.rpow_one]
  have hfl : ⌊((1 + (r : ℝ) / 100 / 2) ^ ((2 : ℝ) / ((12 : ℕ) : ℝ)) - 1) * 10 ^ 10 +
      1/2⌋ = 0 := by
    rw [Int.floor_eq_zero_iff]
    constructor
    · linarith
    · linarith
  rw [hfl]
  norm_num

theorem getPeriodicRate12_ge (r v : ℚ) (hv : 0 ≤ v)
    (hpow : ((1 + v : ℚ) : ℝ) ^ (6 : ℕ) ≤ 1 + (r : ℝ) / 100 / 2) :
    v - 1/10^10 ≤ getPeriodicRate r 12 := by
  unfold getPeriodicRate roundTo10
  have hv0 : (0 : ℝ) ≤ (v : ℝ) := by exact_mod_cast hv
  have hv' : (0 : ℝ) ≤ ((1 + v : ℚ) : ℝ) := by push_cast; linarith
  have he : (0 : ℝ) ≤ (2 : ℝ) / ((12 : ℕ) : ℝ) := by norm_num
  have hbase : (0 : ℝ) ≤ ((1 + v : ℚ) : ℝ) ^ (6 : ℕ) := by positivity
  have hstep : ((1 + v : ℚ) : ℝ) ≤ (1 + (r : ℝ) / 100 / 2) ^ ((2 : ℝ) / ((12 : ℕ) : ℝ)) := by
    calc ((1 + v : ℚ) : ℝ)
        = (((1 + v : ℚ) : ℝ) ^ (6 : ℕ)) ^ ((2 : ℝ) / ((12 : ℕ) : ℝ)) := by
          rw [← Real.rpow_natCast (((1 + v : ℚ) : ℝ)) 6, ← Real.rpow_mul hv']
          norm_num [Real.rpow_one]
      _ ≤ _ := Real.rpow_le_rpow hbase hpow he
  have hstep' : (v : ℝ) ≤ (1 + (r : ℝ) / 100 / 2) ^ ((2 : ℝ) / ((12 : ℕ) : ℝ)) - 1 := by
    push_cast at hstep
    linarith
  have hfl := Int.sub_one_lt_floor
    (((1 + (r : ℝ) / 100 / 2) ^ ((2 : ℝ) / ((12 : ℕ) : ℝ)) - 1) * 10 ^ 10 + 1/2)
  have hlt : ((v * 10^10 - 1/2 : ℚ) : ℝ) <
      ((⌊((1 + (r : ℝ) / 100 / 2) ^ ((2 : ℝ) / ((12 : ℕ) : ℝ)) - 1) * 10 ^ 10 + 1/2⌋ :
        ℤ) : ℝ) := by
    push_cast
    linarith
  have hq : (v * 10^10 - 1/2 : ℚ) <
      ((⌊((1 + (r : ℝ) / 100 / 2) ^ ((2 : ℝ) / ((12 : ℕ) : ℝ)) - 1) * 10 ^ 10 + 1/2⌋ :
        ℤ) : ℚ) := by
    exact_mod_cast hlt
  linarith

theorem getPeriodicRate12_le (r w : ℚ) (hr : 0 ≤ r) (hw : 0 ≤ w)
    (hpow : 1 + (r : ℝ) / 100 / 2 ≤ ((1 + w : ℚ) : ℝ) ^ (6 : ℕ)) :
    getPeriodicRate r 12 ≤ w + 1/10^10 := by
  unfold getPeriodicRate roundTo10
  have hr' : (0 : ℝ) ≤ (r : ℝ) := by exact_mod_cast hr
  have hw0 : (0 : ℝ) ≤ (w : ℝ) := by exact_mod_cast hw
  have hw' : (0 : ℝ) ≤ ((1 + w : ℚ) : ℝ) := by push_cast; linarith
  have hb : (0 : ℝ) ≤ 1 + (r : ℝ) / 100 / 2 := by linarith
  have he : (0 : ℝ) ≤ (2 : ℝ) / ((12 : ℕ) : ℝ) := by norm_num
  have hstep : (1 + (r : ℝ) / 100 / 2) ^ ((2 : ℝ) / ((12 : ℕ) : ℝ)) ≤ ((1 + w : ℚ) : ℝ) := by
    calc (1 + (r : ℝ) / 100 / 2) ^ ((2 : ℝ) / ((12 : ℕ) : ℝ))
        ≤ (((1 + w : ℚ) : ℝ) ^ (6 : ℕ)) ^ ((2 : ℝ) / ((12 : ℕ) : ℝ)) :=
          Real.rpow_le_rpow hb hpow he
      _ = ((1 + w : ℚ) : ℝ) := by
          rw [← Real.rpow_natCast (((1 + w : ℚ) : ℝ)) 6, ← Real.rpow_mul hw']
          norm_num [Real.rpow_one]
  have hstep' : (1 + (r : ℝ) / 100 / 2) ^ ((2 : ℝ) / ((12 : ℕ) : ℝ)) - 1 ≤ (w : ℝ) := by
    push_cast at hstep
    linarith
  have hfle := Int.floor_le
    (((1 + (r : ℝ) / 100 / 2) ^ ((2 : ℝ) / ((12 : ℕ) : ℝ)) - 1) * 10 ^ 10 + 1/2)
  have hle : ((⌊((1 + (r : ℝ) / 100 / 2) ^ ((2 : ℝ) / ((12 : ℕ) : ℝ)) - 1) * 10 ^ 10 +
      1/2⌋ : ℤ) : ℝ) ≤ ((w * 10^10 + 1/2 : ℚ) : ℝ) := by
    push_cast
    linarith
  have hq : ((⌊((1 + (r : ℝ) / 100 / 2) ^ ((2 : ℝ) / ((12 : ℕ) : ℝ)) - 1) * 10 ^ 10 +
      1/2⌋ : ℤ) : ℚ) ≤ (w * 10^10 + 1/2 : ℚ) := by
    exact_mod_cast hle
  linarith

/-! ## C5 -/

/-- C5 counterexample: two distinct nominal rates (`1e-9` and `2e-9` percent,
both `≥ 0`) fall below the 10-decimal resolution of the periodic-rate
rounding, so both periodic rates round to `0` and the two payments coincide
(the annuity formula degenerates identically), refuting strict monotonicity
in the nominal rate. -/
theorem C5_counterexample :
    (0 : ℚ) ≤ 1/10^9 ∧ (1/10^9 : ℚ) < 2/10^9 ∧
      ¬(calculatePayment ⟨100000, 1/10^9, 25, PaymentFrequency.monthly⟩ <
        calculatePayment ⟨100000, 2/10^9, 25, PaymentFrequency.monthly⟩) := by
  have h1 : getPeriodicRate (1/1000000000) 12 = 0 :=
    getPeriodicRate_tiny _ (by norm_num) (by norm_num)
  have h2 : getPeriodicRate (1/500000000) 12 = 0 :=
    getPeriodicRate_tiny _ (by norm_num) (by norm_num)
  refine ⟨by norm_num, by norm_num, ?_⟩
  unfold calculatePayment
  norm_num [getPaymentsPerYear, h1, h2, annuityFactor]

/-- C5 (amended): for every payment frequency, the payment is strictly
increasing in the rounded periodic rate its path applies, not in the nominal
rate: whenever the two nonzero nominal rates map to periodic rates with
`0 < getPeriodicRate r1 k < getPeriodicRate r2 k` — where `k` is the
frequency's own payments-per-year count, except the accelerated variants
which price off the monthly (`k = 12`) rate — the payments are strictly
ordered; nominal-rate increases below the `1e-10` rounding resolution leave
the payment unchanged. -/
theorem C5_amended_strict_mono (p r1 r2 : ℚ) (y : ℕ) (f : PaymentFrequency)
    (hp : 0 < p) (hy : 1 ≤ y) (hr1 : r1 ≠ 0) (hr2 : r2 ≠ 0)
    (hc1 : 0 < getPeriodicRate r1 (effectivePaymentsPerYear f))
    (hc : getPeriodicRate r1 (effectivePaymentsPerYear f) <
      getPeriodicRate r2 (effectivePaymentsPerYear f)) :
    calculatePayment ⟨p, r1, y, f⟩ < calculatePayment ⟨p, r2, y, f⟩ := by
  have key : ∀ k : ℕ, 0 < getPeriodicRate r1 k →
      getPeriodicRate r1 k < getPeriodicRate r2 k → ∀ n : ℕ, 1 ≤ n →
      p * annuityFactor (getPeriodicRate r1 k) n <
        p * annuityFactor (getPeriodicRate r2 k) n :=
    fun _ h1 h2 _ hn =>
      mul_lt_mul_of_pos_left (annuityFactor_strict_mono_in_rate _ _ h1 h2 hn) hp
  cases f with
  | monthly =>
      simp only [effectivePaymentsPerYear, getPaymentsPerYear] at hc1 hc
      simp only [calculatePayment, if_neg hr1, if_neg hr2, getPaymentsPerYear]
      exact key 12 hc1 hc (y * 12) (by omega)
  | semiMonthly =>
      simp only [effectivePaymentsPerYear, getPaymentsPerYear] at hc1 hc
      simp only [calculatePayment, if_neg hr1, if_neg hr2, getPaymentsPerYear]
      exact key 24 hc1 hc (y * 24) (by omega)
  | biWeekly =>
      simp only [effectivePaymentsPerYear, getPaymentsPerYear] at hc1 hc
      simp only [calculatePayment, if_neg hr1, if_neg hr2, getPaymentsPerYear]
      exact key 26 hc1 hc (y * 26) (by omega)
  | weekly =>
      simp only [effectivePaymentsPerYear, getPaymentsPerYear] at hc1 hc
      simp only [calculatePayment, if_neg hr1, if_neg hr2, getPaymentsPerYear]
      exact key 52 hc1 hc (y * 52) (by omega)
  | acceleratedBiWeekly =>
      simp only [effectivePaymentsPerYear] at hc1 hc
      simp only [calculatePayment, if_neg hr1, if_neg hr2, getPaymentsPerYear]
      have h := key 12 hc1 hc (y * 12) (by omega)
      linarith
  | acceleratedWeekly =>
      simp only [effectivePaymentsPerYear] at hc1 hc
      simp only [calculatePayment, if_neg hr1, if_neg hr2, getPaymentsPerYear]
      have h := key 12 hc1 hc (y * 12) (by omega)
      linarith

/-- Witness for the amended C5 at nominal rates `5.25` and `60`, monthly. -/
theorem C5_amended_strict_mono_witness :
    0 < (1000 : ℚ) ∧ 1 ≤ 1 ∧ (21/4 : ℚ) ≠ 0 ∧ (60 : ℚ) ≠ 0 ∧
      0 < getPeriodicRate (21/4) (effectivePaymentsPerYear PaymentFrequency.monthly) ∧
      getPeriodicRate (21/4) (effectivePaymentsPerYear PaymentFrequency.monthly) <
        getPeriodicRate 60 (effectivePaymentsPerYear PaymentFrequency.monthly) ∧
      calculatePayment ⟨1000, 21/4, 1, PaymentFrequency.monthly⟩ <
        calculatePayment ⟨1000, 60, 1, PaymentFrequency.monthly⟩ := by
  have hlow : (1/250 : ℚ) - 1/10^10 ≤ getPeriodicRate (21/4) 12 :=
    getPeriodicRate12_ge (21/4) (1/250) (by norm_num) (by push_cast; norm_num)
  have hup : getPeriodicRate (21/4) 12 ≤ 21/800 + 1/10^10 :=
    getPeriodicRate12_le (21/4) (21/800) (by norm_num) (by norm_num)
      (by push_cast; norm_num)
  have hlow60 : (1/25 : ℚ) - 1/10^10 ≤ getPeriodicRate 60 12 :=
    getPeriodicRate12_ge 60 (1/25) (by norm_num) (by push_cast; norm_num)
  have hc1 : 0 < getPeriodicRate (21/4) 12 := by linarith
  have hcc : getPeriodicRate (21/4) 12 < getPeriodicRate 60 12 := by linarith
  exact ⟨by norm_num, le_refl 1, by norm_num, by norm_num, hc1, hcc,
    C5_amended_strict_mono 1000 (21/4) 60 1 PaymentFrequency.monthly (by norm_num)
      (le_refl 1) (by norm_num) (by norm_num) hc1 hcc⟩

/-! ## C8 -/

theorem calculateMaxMortgage_zero_rate (pay : ℚ) (y : ℕ) (f : PaymentFrequency) :
    calculateMaxMortgage pay 0 y f = pay * ((y * getPaymentsPerYear f : ℕ) : ℚ) := by
  simp [calculateMaxMortgage]

theorem calculateMaxMortgage_of_ne (pay r : ℚ) (hr : r ≠ 0) (y : ℕ) (f : PaymentFrequency) :
    calculateMaxMortgage pay r y f =
      pay * invAnnuityFactor (getPeriodicRate r (getPaymentsPerYear f))
        (y * getPaymentsPerYear f) := by
  simp [calculateMaxMortgage, hr]

theorem contract_le_getStressTestRate (c : ℚ) : c ≤ getStressTestRate c := by
  unfold getStressTestRate STRESS_TEST_RATE_INCREASE
  exact le_trans (by linarith) (le_max_left _ _)

theorem getStressTestRate_ne_zero (c : ℚ) (_hc : 0 ≤ c) : getStressTestRate c ≠ 0 := by
  unfold getStressTestRate STRESS_TEST_RATE_INCREASE MINIMUM_QUALIFYING_RATE
  have : (5.25 : ℚ) ≤ max (c + 2) 5.25 := le_max_right _ _
  intro h
  rw [h] at this
  norm_num at this

theorem calculateMaxMortgage_rate_anti (pay r1 r2 : ℚ) (y : ℕ) (f : PaymentFrequency)
    (hpay : 0 ≤ pay) (h1 : 0 ≤ r1) (h12 : r1 ≤ r2) (hr2 : r2 ≠ 0)
    (hreg : r1 = 0 ∨ 0 < getPeriodicRate r1 (getPaymentsPerYear f)) :
    calculateMaxMortgage pay r2 y f ≤ calculateMaxMortgage pay r1 y f := by
  rcases eq_or_ne r1 0 with h0 | h0
  · subst h0
    rw [calculateMaxMortgage_zero_rate, calculateMaxMortgage_of_ne pay r2 hr2]
    exact mul_le_mul_of_nonneg_left
      (invAnnuityFactor_le_card _ (getPeriodicRate_nonneg r2 _ h12) _) hpay
  · have hc1 : 0 < getPeriodicRate r1 (getPaymentsPerYear f) := hreg.resolve_left h0
    rw [calculateMaxMortgage_of_ne pay r1 h0, calculateMaxMortgage_of_ne pay r2 hr2]
    exact mul_le_mul_of_nonneg_left
      (invAnnuityFactor_anti _ _ hc1 (getPeriodicRate_mono r1 r2 _ h1 h12) _) hpay

/-- C8 (amended): for contract rates that are either exactly `0` or have a
positive rounded periodic rate, the stress test's max-borrowable principal at
the stressed rate never exceeds the one at the contract rate (both derived
from the same TDS-40% payment budget), and the stressed rate is never below
the contract rate.  Positive contract rates below the `1e-10` periodic-rate
rounding resolution are excluded: there the contract-side inverse annuity
formula degenerates (`NaN` in the source, a zero in this embedding) and the
comparison fails. -/
theorem C8_amended_stress_not_above_contract (p c : ℚ) (y : ℕ) (f : PaymentFrequency)
    (inc debts tax heat condo : ℚ) (hc : 0 ≤ c)
    (hreg : c = 0 ∨ 0 < getPeriodicRate c (getPaymentsPerYear f)) :
    (performStressTest p c y f inc debts tax heat condo).maxMortgageAtStress ≤
        (performStressTest p c y f inc debts tax heat condo).maxMortgageAtContract ∧
      c ≤ getStressTestRate c := by
  refine ⟨?_, contract_le_getStressTestRate c⟩
  unfold performStressTest
  dsimp only
  apply round2_mono
  exact calculateMaxMortgage_rate_anti _ c (getStressTestRate c) y f (le_max_left 0 _)
    hc (contract_le_getStressTestRate c) (getStressTestRate_ne_zero c hc) hreg

/-- Witness for the amended C8 at a concrete zero contract rate. -/
theorem C8_amended_stress_not_above_contract_witness :
    (0 : ℚ) ≤ 0 ∧ ((0 : ℚ) = 0 ∨ 0 < getPeriodicRate 0 (getPaymentsPerYear
        PaymentFrequency.monthly)) ∧
      ((performStressTest 400000 0 25 PaymentFrequency.monthly 80000 500 0 0
            0).maxMortgageAtStress ≤
          (performStressTest 400000 0 25 PaymentFrequency.monthly 80000 500 0 0
            0).maxMortgageAtContract ∧
        (0 : ℚ) ≤ getStressTestRate 0) :=
  ⟨le_refl 0, Or.inl rfl,
    C8_amended_stress_not_above_contract 400000 0 25 PaymentFrequency.monthly 80000 500 0 0 0
      (le_refl 0) (Or.inl rfl)⟩

theorem round2_zero : round2 0 = 0 := by
  norm_num [round2]

theorem sum_discount_ge_inv (c : ℚ) (hc : 0 < c) {n : ℕ} (hn : 1 ≤ n) :
    (1 + c)⁻¹ ≤ ∑ i ∈ Finset.range n, ((1 + c)⁻¹) ^ (i + 1) := by
  obtain ⟨m, rfl⟩ : ∃ m, n = m + 1 := ⟨n - 1, by omega⟩
  rw [Finset.sum_range_succ']
  have h0 : (0 : ℚ) ≤ ∑ i ∈ Finset.range m, ((1 + c)⁻¹) ^ (i + 1 + 1) :=
    Finset.sum_nonneg fun i _ => pow_nonneg (inv_nonneg.mpr (by linarith)) _
  have h1 : ((1 + c)⁻¹ : ℚ) ^ (0 + 1) = (1 + c)⁻¹ := by
    rw [zero_add, pow_one]
  linarith

/-- C8 counterexample: at the positive sub-resolution contract rate `1e-9`
(with income 30000, no debts or costs, 1 year monthly), the contract-side
periodic rate rounds to `0`, the inverse annuity formula degenerates (`NaN`
in the source, `0` in this exact embedding), and the reported
`maxMortgageAtStress` (≈ 970.87) is not `≤ maxMortgageAtContract`. -/
theorem C8_counterexample :
    (0 : ℚ) ≤ 1/10^9 ∧
      ¬((performStressTest 100000 (1/10^9) 1 PaymentFrequency.monthly 30000 0 0 0
            0).maxMortgageAtStress ≤
        (performStressTest 100000 (1/10^9) 1 PaymentFrequency.monthly 30000 0 0 0
            0).maxMortgageAtContract) := by
  have hstress : getStressTestRate (1/10^9) = 21/4 := by
    unfold getStressTestRate STRESS_TEST_RATE_INCREASE MINIMUM_QUALIFYING_RATE
    rw [max_eq_right (by norm_num : (1/10^9 : ℚ) + 2 ≤ 5.25)]
    norm_num
  have hc1 : getPeriodicRate (1/10^9) 12 = 0 :=
    getPeriodicRate_tiny _ (by norm_num) (by norm_num)
  have hlow : (1/250 : ℚ) - 1/10^10 ≤ getPeriodicRate (21/4) 12 :=
    getPeriodicRate12_ge (21/4) (1/250) (by norm_num) (by push_cast; norm_num)
  have hup : getPeriodicRate (21/4) 12 ≤ 21/800 + 1/10^10 :=
    getPeriodicRate12_le (21/4) (21/800) (by norm_num) (by norm_num)
      (by push_cast; norm_num)
  refine ⟨by norm_num, ?_⟩
  intro hle
  unfold performStressTest at hle
  dsimp only at hle
  rw [hstress, calculateMaxMortgage_of_ne _ _ (by norm_num : (1/10^9 : ℚ) ≠ 0),
    calculateMaxMortgage_of_ne _ _ (by norm_num : (21/4 : ℚ) ≠ 0)] at hle
  simp only [getPaymentsPerYear, one_mul] at hle
  rw [hc1, invAnnuityFactor_zero, mul_zero, round2_zero] at hle
  norm_num [max_def] at hle
  set c2 : ℚ := getPeriodicRate (21/4) 12 with hc2def
  have hc2pos : 0 < c2 := by linarith
  have hc2le : 1 + c2 ≤ 103/100 := by linarith
  have hsum := invAnnuityFactor_eq_sum _ hc2pos 12
  have hxinv : (100/103 : ℚ) ≤ (1 + c2)⁻¹ := by
    calc (100/103 : ℚ) = (103/100 : ℚ)⁻¹ := by norm_num
      _ ≤ (1 + c2)⁻¹ := inv_anti₀ (by linarith) hc2le
  have hinvF : (100/103 : ℚ) ≤ invAnnuityFactor c2 12 := by
    rw [hsum]
    have hge := sum_discount_ge_inv c2 hc2pos (show 1 ≤ 12 by norm_num)
    linarith
  have hmul : (100000/103 : ℚ) ≤ 1000 * invAnnuityFactor c2 12 := by
    linarith
  have hr2 := round2_mono hmul
  have hval : round2 (100000/103 : ℚ) = 97087/100 := by norm_num [round2]
  rw [hval] at hr2
  linarith

end MortgagePro
